import Mathlib

/-!
Verification model of the homebridge-ch-ac driver core
(src/app/deviceFactory.js and src/app/encryptionService.js).

Shallow-embedding conventions:

* JS strings that travel on the wire (host addresses, device ids, keys,
  command codes, firmware version strings) are byte strings, modelled as
  `List Nat`; the helper `strBytes` turns a Lean string literal into its
  byte form for concrete instances.
* `undefined` / missing JS values are `Option.none`.
* A thrown JS exception is the `Except.error` branch of the modelled
  function; the error value carries what the surrounding code can still
  observe at the throw point (for the message handler: the session state
  as mutated so far).
* `JSON.stringify` / `JSON.parse` are platform (node) library code, not
  repository code.  They are modelled as an injective byte encoding
  `stringifyPayload` over the tagged union of the protocol's inner
  payload shapes, together with its verified partial inverse
  `parsePayload`.  These are the only properties of JSON the source
  relies on.
* The AES primitives of node's crypto module are platform code.  They
  are modelled by concrete keyed byte transforms: `ecbApply` stands for
  the aes-128-ecb encrypt/decrypt pipeline (a keyed invertible transform
  on the serialized payload; modelled as a self-inverse keyed stream so
  that the same definition serves for createCipheriv/createDecipheriv),
  and `gcmCtr`/`gcmTag` stand for the aes-128-gcm counter-mode keystream
  and authentication tag (the tag is a concrete keyed digest of the
  ciphertext that also folds in the fixed IV and AAD constants, so it
  matches exactly when and only when key, ciphertext, IV and AAD all
  match).  The round-trip and tag-rejection properties proved below do
  not depend on the particular concrete transform chosen.
* Logging calls (`this.log`, `this.log.info`) are omitted: they are not
  observable effects of the protocol layer.
-/

namespace ChAc

/-- Byte strings: the model of JS strings and Buffers on the wire. -/
abbrev Bytes := List Nat

/-- Byte form of a Lean string literal, for concrete instances. -/
def strBytes (s : String) : Bytes := s.toList.map Char.toNat

/-! ## Inner payloads (the decrypted JSON objects)

The tagged union of all inner payload shapes the source produces or
dispatches on (`pack.t` in `_handleResponse`, plus the outbound message
literals).  `other` stands for any well-formed JSON object whose `t` tag
is none of the known ones. -/

/-- Inner protocol payload, tagged by the JS `t` field. -/
inductive Payload where
  | dev (cid : Option Bytes) (name : Option Bytes) (ver : Option Bytes)
  | bindok (key : Option Bytes)
  | dat (cols : List Bytes) (vals : List Int)
  | res (opt : List Bytes) (val : Option (List Int)) (pvals : Option (List Int))
  | bind (mac : Option Bytes) (uid : Nat)
  | status (cols : List Bytes) (mac : Option Bytes)
  | cmd (opt : List Bytes) (pvals : List Int)
  | other
deriving DecidableEq

/-! ## Serialization (model of JSON.stringify / JSON.parse)

A simple injective tag-length-value byte encoding with a verified
partial inverse.  Field order follows the JS object literals. -/

/-- Encode one length-prefixed byte string field. -/
def encBytes (l : Bytes) : Bytes := l.length :: l

/-- Encode one integer field. -/
def encInt : Int → Bytes
  | Int.ofNat n => 0 :: [n]
  | Int.negSucc n => 1 :: [n]

/-- Encode an optional field (JS: absent/undefined vs present). -/
def encOpt (f : α → Bytes) : Option α → Bytes
  | none => [0]
  | some a => 1 :: f a

/-- Encode a count-prefixed list field. -/
def encList (f : α → Bytes) (l : List α) : Bytes :=
  l.length :: (l.map f).flatten

/-- Decode one length-prefixed byte string field. -/
def decBytes : Bytes → Option (Bytes × Bytes)
  | [] => none
  | n :: r => some (r.take n, r.drop n)

/-- Decode one integer field. -/
def decInt : Bytes → Option (Int × Bytes)
  | 0 :: n :: r => some (Int.ofNat n, r)
  | 1 :: n :: r => some (Int.negSucc n, r)
  | _ => none

/-- Decode an optional field. -/
def decOpt (f : Bytes → Option (α × Bytes)) : Bytes → Option (Option α × Bytes)
  | 0 :: r => some (none, r)
  | 1 :: r => (f r).bind fun ar => some (some ar.1, ar.2)
  | _ => none

/-- Decode `n` consecutive fields. -/
def decListAux (f : Bytes → Option (α × Bytes)) : Nat → Bytes → Option (List α × Bytes)
  | 0, r => some ([], r)
  | n + 1, r =>
      (f r).bind fun ar =>
        (decListAux f n ar.2).bind fun lr => some (ar.1 :: lr.1, lr.2)

/-- Decode a count-prefixed list field. -/
def decList (f : Bytes → Option (α × Bytes)) : Bytes → Option (List α × Bytes)
  | [] => none
  | n :: r => decListAux f n r

/-- Serialize an inner payload (model of JSON.stringify in the codec). -/
def stringifyPayload : Payload → Bytes
  | Payload.dev cid name ver =>
      0 :: (encOpt encBytes cid ++ encOpt encBytes name ++ encOpt encBytes ver)
  | Payload.bindok key => 1 :: encOpt encBytes key
  | Payload.dat cols vals => 2 :: (encList encBytes cols ++ encList encInt vals)
  | Payload.res opt val pvals =>
      3 :: (encList encBytes opt ++ encOpt (encList encInt) val ++
        encOpt (encList encInt) pvals)
  | Payload.bind mac uid => 4 :: (encOpt encBytes mac ++ [uid])
  | Payload.status cols mac => 5 :: (encList encBytes cols ++ encOpt encBytes mac)
  | Payload.cmd opt pvals => 6 :: (encList encBytes opt ++ encList encInt pvals)
  | Payload.other => [7]

/-- Parse an inner payload (model of JSON.parse in the codec); `none`
is a JSON parse failure. -/
def parsePayload : Bytes → Option Payload
  | 0 :: r =>
      (decOpt decBytes r).bind fun c =>
        (decOpt decBytes c.2).bind fun n =>
          (decOpt decBytes n.2).bind fun v =>
            if v.2.isEmpty then some (Payload.dev c.1 n.1 v.1) else none
  | 1 :: r =>
      (decOpt decBytes r).bind fun k =>
        if k.2.isEmpty then some (Payload.bindok k.1) else none
  | 2 :: r =>
      (decList decBytes r).bind fun c =>
        (decList decInt c.2).bind fun d =>
          if d.2.isEmpty then some (Payload.dat c.1 d.1) else none
  | 3 :: r =>
      (decList decBytes r).bind fun o =>
        (decOpt (decList decInt) o.2).bind fun v =>
          (decOpt (decList decInt) v.2).bind fun p =>
            if p.2.isEmpty then some (Payload.res o.1 v.1 p.1) else none
  | 4 :: r =>
      (decOpt decBytes r).bind fun m =>
        match m.2 with
        | [u] => some (Payload.bind m.1 u)
        | _ => none
  | 5 :: r =>
      (decList decBytes r).bind fun c =>
        (decOpt decBytes c.2).bind fun m =>
          if m.2.isEmpty then some (Payload.status c.1 m.1) else none
  | 6 :: r =>
      (decList decBytes r).bind fun o =>
        (decList decInt o.2).bind fun p =>
          if p.2.isEmpty then some (Payload.cmd o.1 p.1) else none
  | [7] => some Payload.other
  | _ => none

/-! ## Encryption service (src/app/encryptionService.js)

The module is instantiated with its default parameters
`defaultKey = 'a3K8Bx%2r8Y7#xDh'` and `defaultKey_v2 = '\x7byxAHAY_Lm6pbC/<'`
(`deviceFactory.js` line 2: `require('./encryptionService')()`). -/

/-- The module's first default parameter: the well-known legacy key. -/
def defaultKey : Bytes := strBytes "a3K8Bx%2r8Y7#xDh"

/-- The module's second default parameter.  The source declares it but
never references it: the default-key expressions of `decrypt_v2` and
`encrypt_v2` are written `genericKey_v2`, a name that is not defined
anywhere in the module. -/
def defaultKey_v2 : Bytes := strBytes "\x7byxAHAY_Lm6pbC/<"

/-- The fixed 96-bit GCM initialization vector `iv_v2`. -/
def iv_v2 : Bytes :=
  [0x54, 0x40, 0x78, 0x44, 0x49, 0x67, 0x5a, 0x51, 0x6c, 0x5e, 0x63, 0x13]

/-- The fixed additional-authenticated-data constant `aad_v2`. -/
def aad_v2 : Bytes := strBytes "qualcomm-test"

/-- Concrete keyed digest of a byte string, used to derive keystreams
and tags from key/IV/AAD material (stand-in for platform AES). -/
def seedOf (l : Bytes) : Nat :=
  l.foldl (fun a b => (a * 131 + b + 1) % 65521) 7

/-- Keyed byte stream applied from position `i` on (xor of each byte
with a key-derived pad byte). -/
def xorStream (f : Nat → Nat) : Nat → Bytes → Bytes
  | _, [] => []
  | i, b :: bs => (b ^^^ f i) :: xorStream f (i + 1) bs

/-- Pad byte `i` of the aes-128-ecb stand-in for key `k`. -/
def ecbPad (k : Bytes) (i : Nat) : Nat :=
  (seedOf k * (i + 1) + 101 * i + 31) % 256

/-- Model of the aes-128-ecb encrypt/decrypt pipeline of
`crypto.createCipheriv('aes-128-ecb', key, '')` (together with the
base64 transport coding, which is bijective).  The platform transform
is an invertible keyed map on byte strings; it is modelled as a
self-inverse keyed stream so the same definition serves for the cipher
and the decipher direction. -/
def ecbApply (k : Bytes) (bs : Bytes) : Bytes := xorStream (ecbPad k) 0 bs

/-- Pad byte `i` of the aes-128-gcm counter-mode keystream for key `k`;
folds in the fixed IV, as `createCipheriv('aes-128-gcm', key, iv_v2)`
derives its keystream from key and IV. -/
def gcmPad (k : Bytes) (i : Nat) : Nat :=
  ((seedOf k + seedOf iv_v2) * (i + 1) + 53 * i + 29) % 256

/-- GCM counter-mode transform (encrypting and decrypting direction
coincide: counter mode xors the plaintext with the keystream). -/
def gcmCtr (k : Bytes) (bs : Bytes) : Bytes := xorStream (gcmPad k) 0 bs

/-- Model of the GCM authentication tag: a keyed digest of the
ciphertext that folds in key, IV and AAD, matching exactly when key,
ciphertext, IV and AAD all match byte for byte. -/
def gcmTag (k : Bytes) (ct : Bytes) : Nat :=
  ct.foldl (fun a b => (a * 257 + b + 1) % 65521)
    ((seedOf k + seedOf aad_v2 + seedOf iv_v2) % 65521)

/-- Errors a codec call can raise: `badJson` for a JSON-parse (or
padding) failure, `badTag` for a GCM authentication failure,
`refError` for the ReferenceError raised when a default-key expression
evaluates the undefined name `genericKey_v2`. -/
inductive DecErr where
  | badJson
  | badTag
  | refError
deriving DecidableEq

/-- Result of `encrypt_v2`: the `{pack, tag}` object. -/
structure EncV2 where
  pack : Bytes
  tag : Nat
deriving DecidableEq

/-- `encryptionService.decrypt(input, key)`: aes-128-ecb decrypt of
`input.pack` with `key` (the well-known default key when the argument
is omitted/undefined), then JSON.parse. -/
def decrypt (pack : Bytes) (key : Option Bytes) : Except DecErr Payload :=
  match parsePayload (ecbApply (key.getD defaultKey) pack) with
  | some p => Except.ok p
  | none => Except.error DecErr.badJson

/-- `encryptionService.encrypt(output, key)`: JSON.stringify, then
aes-128-ecb encrypt with `key` (default key when omitted/undefined). -/
def encrypt (output : Payload) (key : Option Bytes) : Bytes :=
  ecbApply (key.getD defaultKey) (stringifyPayload output)

/-- `encryptionService.decrypt_v2(input, tag, key)`: aes-128-gcm with
`iv_v2`/`aad_v2`.  When the key argument is omitted or undefined the
default parameter expression `genericKey_v2` is evaluated, and that
name is undefined, so the call throws a ReferenceError.  With a key,
`decipher.final()` verifies the tag before the plaintext is parsed. -/
def decrypt_v2 (pack : Bytes) (tag : Nat) (key : Option Bytes) : Except DecErr Payload :=
  match key with
  | none => Except.error DecErr.refError
  | some k =>
      if tag = gcmTag k pack then
        match parsePayload (gcmCtr k pack) with
        | some p => Except.ok p
        | none => Except.error DecErr.badJson
      else Except.error DecErr.badTag

/-- `encryptionService.encrypt_v2(output, key)`: JSON.stringify, then
aes-128-gcm encrypt producing `{pack, tag}`.  As with `decrypt_v2`, an
omitted/undefined key evaluates the undefined `genericKey_v2` and
throws a ReferenceError. -/
def encrypt_v2 (output : Payload) (key : Option Bytes) : Except DecErr EncV2 :=
  match key with
  | none => Except.error DecErr.refError
  | some k =>
      let ct := gcmCtr k (stringifyPayload output)
      Except.ok ⟨ct, gcmTag k ct⟩

/-! ## Device session model (src/app/deviceFactory.js) -/

/-- Modelled from the spec: the command-code table `commandEnums.js` is
required by `deviceFactory.js` but is not under src/.  Per spec section
6 it maps logical property names to wire codes, and spec section 8
gives the power code as "Pow" and the mode code as "Mod"; the remaining
codes follow the same table.  `deviceFactory.js` only needs the
flattened code list (for polling) and individual codes (for get/set). -/
def allCommandCodes : List Bytes :=
  [strBytes "Pow", strBytes "Mod", strBytes "TemUn", strBytes "SetTem",
   strBytes "WdSpd", strBytes "SwUpDn", strBytes "TemSen"]

/-- Modelled from the spec: `cmd.power.code`, the wire code of the
power property ("Pow" per spec section 8). -/
def powerCode : Bytes := strBytes "Pow"

/-- The resolved constructor options (`this.options`): the configured
host and the poll interval.  Callback fields are represented by the
`Effect` values the model emits; the derived local port does not enter
any handler. -/
structure Options where
  host : Bytes
  updateInterval : Nat
deriving DecidableEq

/-- `this.options` as computed by the constructor:
`updateInterval: options.updateInterval || 10000` (a missing or falsy
value selects the 10000 ms default). -/
def mkOptions (host : Bytes) (updateInterval : Option Nat) : Options :=
  ⟨host, match updateInterval with
         | some n => if n = 0 then 10000 else n
         | none => 10000⟩

/-- Sender information of an inbound datagram (`rinfo`). -/
structure RInfo where
  address : Bytes
  port : Nat
deriving DecidableEq

/-- The mutable per-device session object `this.device`.  Property
values are `Option Int`: `none` models a JS `undefined` value written
by an out-of-range parallel-array read. -/
structure DeviceState where
  id : Option Bytes
  name : Option Bytes
  address : Option Bytes
  port : Option Nat
  bound : Bool
  props : List (Bytes × Option Int)
  key : Option Bytes
  encryptionV2 : Bool
deriving DecidableEq

/-- The session as the constructor creates it:
`this.device = { bound: false, props: {} }`. -/
def initState : DeviceState :=
  ⟨none, none, none, none, false, [], none, false⟩

/-- JS truthiness of `this.device.id` (undefined and the empty string
are falsy). -/
def idTruthy : Option Bytes → Bool
  | none => false
  | some s => !s.isEmpty

/-- JS truthiness of `pack.ver && pack.ver.startsWith('V2.')`. -/
def verIsV2 : Option Bytes → Bool
  | none => false
  | some v => v.take 3 == strBytes "V2."

/-- One JS property assignment `props[k] = v`; reads find the most
recent assignment first. -/
def setProp (ps : List (Bytes × Option Int)) (k : Bytes) (v : Option Int) :
    List (Bytes × Option Int) :=
  (k, v) :: ps

/-- Property read `props[k]`: outer `none` when the key was never
assigned. -/
def lookupProp : List (Bytes × Option Int) → Bytes → Option (Option Int)
  | [], _ => none
  | (k', v) :: t, k => if k = k' then some v else lookupProp t k

/-- The `forEach` loops of the `dat` and `res` branches: assign
`props[cols[i]] = vals[i]` for i = 0, 1, ... (an out-of-range read of
`vals` assigns `undefined`). -/
def applyCols : List (Bytes × Option Int) → List Bytes → List Int → Nat →
    List (Bytes × Option Int)
  | ps, [], _, _ => ps
  | ps, c :: cs, vals, i => applyCols (setProp ps c (vals.get? i)) cs vals (i + 1)

/-- The outbound wire envelope built by `_sendBindRequest` and
`_sendRequest`.  The constant fields `cid: 'app'`, `t: 'pack'`,
`uid: 0` are identical for every request and are omitted; `i` is 1 for
the bind request and 0 otherwise, `tag` is present iff the
authenticated scheme produced one. -/
structure Request where
  i : Nat
  pack : Bytes
  tag : Option Nat
deriving DecidableEq

/-- Observable effects of one handler or facade call, in program
order.  `send` is `this.socket.send(...)` with its destination;
`startInterval` is the `setInterval` registration of
`_requestDeviceStatus`; the remaining constructors are the caller
callbacks from `this.options`. -/
inductive Effect where
  | send (req : Request) (port : Option Nat) (address : Option Bytes)
  | startInterval (ms : Nat)
  | onConnected
  | onStatus
  | onUpdate
  | onError
  | onDisconnected
deriving DecidableEq

/-- `_setDevice(id, name, address, port)`. -/
def setDevice (st : DeviceState) (id name : Option Bytes) (address : Bytes)
    (port : Nat) : DeviceState :=
  { st with id := id, name := name, address := some address, port := some port,
            bound := false, props := [] }

/-- `_sendBindRequest(device)`: legacy-encrypt the bind message with
the default key; under `encryptionV2` additionally encrypt with
`encrypt_v2` called without a key, which throws (ReferenceError on
`genericKey_v2`) before anything is sent.  The error value is the
state as observable at the throw point (this function mutates
nothing). -/
def sendBindRequest (st : DeviceState) :
    Except DeviceState (DeviceState × List Effect) :=
  let message := Payload.bind st.id 0
  let legacyPack := encrypt message none
  if st.encryptionV2 then
    match encrypt_v2 message none with
    | Except.error _ => Except.error st
    | Except.ok enc =>
        Except.ok (st, [Effect.send ⟨1, enc.pack, some enc.tag⟩ st.port st.address])
  else
    Except.ok (st, [Effect.send ⟨1, legacyPack, none⟩ st.port st.address])

/-- The decryption step of `_handleResponse` (lines 161 to 166): the
legacy scheme when the envelope has no `tag` field, the authenticated
scheme otherwise, with `(this.device || {}).key` as the key. -/
def decryptEnvelope (key : Option Bytes) (pack : Bytes) (tag : Option Nat) :
    Except DecErr Payload :=
  match tag with
  | none => decrypt pack key
  | some t => decrypt_v2 pack t key

/-- An inbound envelope after the outer JSON.parse: the fields
`_handleResponse` reads (`cid`, `pack`, and the optional `tag`). -/
structure InMessage where
  cid : Option Bytes
  pack : Bytes
  tag : Option Nat
deriving DecidableEq

/-- The body of `_handleResponse`'s try block after decryption: the
sequential `pack.t` dispatch.  An `Except.error` is a JS exception
thrown inside the try block, carrying the session state as mutated so
far. -/
def dispatch (opts : Options) (st : DeviceState) (rinfo : RInfo) (m : InMessage) :
    Payload → Except DeviceState (DeviceState × List Effect)
  | Payload.dev cid name ver =>
      let isV2 := verIsV2 ver
      let st1 := if isV2 then { st with encryptionV2 := true } else st
      let mcid := if isV2 then cid else m.cid
      sendBindRequest (setDevice st1 mcid name rinfo.address rinfo.port)
  | Payload.bindok k =>
      if idTruthy st.id then
        Except.ok ({ st with bound := true, key := k },
          [Effect.startInterval opts.updateInterval, Effect.onConnected])
      else Except.ok (st, [Effect.onError])
  | Payload.dat cols vals =>
      if st.bound then
        Except.ok ({ st with props := applyCols st.props cols vals 0 },
          [Effect.onStatus])
      else Except.ok (st, [Effect.onError])
  | Payload.res opt val pvals =>
      if st.bound then
        match (match val with | some v => some v | none => pvals) with
        | some source =>
            Except.ok ({ st with props := applyCols st.props opt source 0 },
              [Effect.onUpdate])
        | none =>
            if opt.isEmpty then Except.ok (st, [Effect.onUpdate])
            else Except.error st
      else Except.ok (st, [Effect.onError])
  | _ => Except.ok (st, [Effect.onError])

/-- The try block of `_handleResponse`: decrypt, then dispatch. -/
def handleTry (opts : Options) (st : DeviceState) (rinfo : RInfo)
    (m : InMessage) : Except DeviceState (DeviceState × List Effect) :=
  match decryptEnvelope st.key m.pack m.tag with
  | Except.error _ => Except.error st
  | Except.ok p => dispatch opts st rinfo m p

/-- `_handleResponse(msg, rinfo)`.  The raw datagram is `none` when its
text is not valid JSON; that outer `JSON.parse` (line 157) runs
*before* the try block, so its exception escapes the handler
(`Except.error ()` at this level is an uncaught exception).  A JS
exception inside the try block is caught and reported via `onError`
with the state as mutated up to the throw point. -/
def handleResponse (opts : Options) (st : DeviceState) (rinfo : RInfo)
    (raw : Option InMessage) : Except Unit (DeviceState × List Effect) :=
  if rinfo.address != opts.host then
    Except.ok (st, [])
  else
    match raw with
    | none => Except.error ()
    | some m =>
        match handleTry opts st rinfo m with
        | Except.ok r => Except.ok r
        | Except.error stThrow => Except.ok (stThrow, [Effect.onError])

/-- `_sendRequest(message, address, port)`: the authenticated scheme
when `this.device.encryptionV2` is set (with `this.device.key`, whose
absence makes `encrypt_v2` throw to the caller), the legacy scheme
otherwise.  Returns the effects; `Except.error` is the uncaught
exception. -/
def sendRequest (st : DeviceState) (message : Payload) (address : Option Bytes)
    (port : Option Nat) : Except Unit (List Effect) :=
  if st.encryptionV2 then
    match encrypt_v2 message st.key with
    | Except.error _ => Except.error ()
    | Except.ok enc => Except.ok [Effect.send ⟨0, enc.pack, some enc.tag⟩ port address]
  else
    Except.ok [Effect.send ⟨0, encrypt message st.key, none⟩ port address]

/-- `_requestDeviceStatus(device)`: the poll-tick body registered by
`setInterval`. -/
def requestDeviceStatus (st : DeviceState) : Except Unit (List Effect) :=
  sendRequest st (Payload.status allCommandCodes st.id) st.address st.port

/-- `_sendCommand(commands, values)`. -/
def sendCommand (st : DeviceState) (commands : List Bytes) (values : List Int) :
    Except Unit (List Effect) :=
  sendRequest st (Payload.cmd commands values) st.address st.port

/-- `setPower(value)`. -/
def setPower (st : DeviceState) (value : Bool) : Except Unit (List Effect) :=
  sendCommand st [powerCode] [if value then 1 else 0]

/-- Whether a facade call produced at least one socket send. -/
def isSendEffect : Effect → Bool
  | Effect.send _ _ _ => true
  | _ => false

/-- Whether a facade result contains a socket send. -/
def producesSend : Except Unit (List Effect) → Bool
  | Except.ok effs => effs.any isSendEffect
  | Except.error _ => false

/-! ## Concrete fixtures for the evaluated instances -/

/-- A configured device address. -/
def wHost : Bytes := strBytes "192.168.1.9"

/-- Sender info matching the configured address. -/
def wRinfo : RInfo := ⟨wHost, 7000⟩

/-- Sender info for an unrelated host on the network. -/
def wRinfoFar : RInfo := ⟨strBytes "192.168.1.66", 7000⟩

/-- A device id as reported in a handshake reply. -/
def wId : Bytes := strBytes "f4cid01"

/-- A device-issued 128-bit session key. -/
def sessionKey : Bytes := strBytes "Ud8mWnk0zS3cEty9"

/-- Session right after a legacy handshake: identified, not yet bound. -/
def stIdent : DeviceState :=
  { initState with id := some wId, name := some (strBytes "ac"),
                   address := some wHost, port := some 7000 }

/-- Session after a successful legacy bind. -/
def stBound : DeviceState :=
  { stIdent with bound := true, key := some sessionKey }

/-- An envelope whose encrypted payload does not decrypt to JSON (an
empty ciphertext parses to nothing). -/
def mBadJson : InMessage := ⟨none, [], none⟩

/-- A `bindok` envelope under the legacy scheme with the default key. -/
def mBindok : InMessage :=
  ⟨some wId, encrypt (Payload.bindok (some sessionKey)) none, none⟩

/-- A `dat` envelope under the legacy scheme with the session key. -/
def mDat : InMessage :=
  ⟨none, encrypt (Payload.dat [strBytes "Pow", strBytes "Mod"] [1, 2])
    (some sessionKey), none⟩

/-- A `dat` envelope under the legacy scheme with the default key (as a
device would send pre-bind). -/
def mDatDefault : InMessage :=
  ⟨none, encrypt (Payload.dat [strBytes "Pow", strBytes "Mod"] [1, 2]) none, none⟩

/-- A `res` envelope carrying a `val` array. -/
def mResVal : InMessage :=
  ⟨none, encrypt (Payload.res [strBytes "Pow"] (some [0]) none)
    (some sessionKey), none⟩

/-- A `res` envelope with no `val` but a `p` array. -/
def mResP : InMessage :=
  ⟨none, encrypt (Payload.res [strBytes "Pow"] none (some [0]))
    (some sessionKey), none⟩

/-- A handshake reply reporting firmware `V2.1.0`. -/
def mDevV2 : InMessage :=
  ⟨some wId, encrypt (Payload.dev (some wId) (some (strBytes "ac"))
    (some (strBytes "V2.1.0"))) none, none⟩

/-- A handshake reply reporting firmware `V1.0.0`. -/
def mDevV1 : InMessage :=
  ⟨some wId, encrypt (Payload.dev (some wId) (some (strBytes "ac"))
    (some (strBytes "V1.0.0"))) none, none⟩

/-- A payload for the authenticated round trip. -/
def w7P : Payload := Payload.bind (some (strBytes "mac01")) 0

/-- The `{pack, tag}` object `encrypt_v2` produces for `w7P` under
`sessionKey`. -/
def w7enc : EncV2 :=
  ⟨gcmCtr sessionKey (stringifyPayload w7P),
   gcmTag sessionKey (gcmCtr sessionKey (stringifyPayload w7P))⟩

/-! ## Helper lemmas: the keyed stream is an involution -/

theorem xorStream_xorStream (f : Nat → Nat) :
    ∀ (i : Nat) (bs : Bytes), xorStream f i (xorStream f i bs) = bs := by
  intro i bs
  induction bs generalizing i with
  | nil => rfl
  | cons b t ih =>
      simp [xorStream, ih, Nat.xor_assoc]

theorem ecbApply_ecbApply (k : Bytes) (bs : Bytes) :
    ecbApply k (ecbApply k bs) = bs :=
  xorStream_xorStream _ 0 bs

theorem gcmCtr_gcmCtr (k : Bytes) (bs : Bytes) :
    gcmCtr k (gcmCtr k bs) = bs :=
  xorStream_xorStream _ 0 bs

/-! ## Helper lemmas: serialization round trip -/

theorem decBytes_enc (l r : Bytes) : decBytes (encBytes l ++ r) = some (l, r) := by
  simp [decBytes, encBytes]

theorem decBytes_enc_nil (l : Bytes) : decBytes (encBytes l) = some (l, []) := by
  simpa using decBytes_enc l []

theorem decInt_enc (n : Int) (r : Bytes) : decInt (encInt n ++ r) = some (n, r) := by
  cases n <;> rfl

theorem decOpt_enc {α : Type} (f : Bytes → Option (α × Bytes)) (enc : α → Bytes)
    (hf : ∀ a r, f (enc a ++ r) = some (a, r)) (o : Option α) (r : Bytes) :
    decOpt f (encOpt enc o ++ r) = some (o, r) := by
  cases o with
  | none => rfl
  | some a => simp [decOpt, encOpt, hf]

theorem decListAux_enc {α : Type} (f : Bytes → Option (α × Bytes)) (enc : α → Bytes)
    (hf : ∀ a r, f (enc a ++ r) = some (a, r)) :
    ∀ (l : List α) (r : Bytes),
      decListAux f l.length ((l.map enc).flatten ++ r) = some (l, r) := by
  intro l
  induction l with
  | nil => intro r; rfl
  | cons a t ih =>
      intro r
      simp [decListAux, hf, ih]

theorem decList_enc {α : Type} (f : Bytes → Option (α × Bytes)) (enc : α → Bytes)
    (hf : ∀ a r, f (enc a ++ r) = some (a, r)) (l : List α) (r : Bytes) :
    decList f (encList enc l ++ r) = some (l, r) := by
  simpa [decList, encList] using decListAux_enc f enc hf l r

theorem decOptBytes_enc (o : Option Bytes) (r : Bytes) :
    decOpt decBytes (encOpt encBytes o ++ r) = some (o, r) :=
  decOpt_enc _ _ decBytes_enc o r

theorem decOptBytes_enc_nil (o : Option Bytes) :
    decOpt decBytes (encOpt encBytes o) = some (o, []) := by
  simpa using decOptBytes_enc o []

theorem decListBytes_enc (l : List Bytes) (r : Bytes) :
    decList decBytes (encList encBytes l ++ r) = some (l, r) :=
  decList_enc _ _ decBytes_enc l r

theorem decListBytes_enc_nil (l : List Bytes) :
    decList decBytes (encList encBytes l) = some (l, []) := by
  simpa using decListBytes_enc l []

theorem decListInt_enc (l : List Int) (r : Bytes) :
    decList decInt (encList encInt l ++ r) = some (l, r) :=
  decList_enc _ _ decInt_enc l r

theorem decListInt_enc_nil (l : List Int) :
    decList decInt (encList encInt l) = some (l, []) := by
  simpa using decListInt_enc l []

theorem decOptListInt_enc (o : Option (List Int)) (r : Bytes) :
    decOpt (decList decInt) (encOpt (encList encInt) o ++ r) = some (o, r) :=
  decOpt_enc _ _ decListInt_enc o r

theorem decOptListInt_enc_nil (o : Option (List Int)) :
    decOpt (decList decInt) (encOpt (encList encInt) o) = some (o, []) := by
  simpa using decOptListInt_enc o []

/-- The modelled JSON parse inverts the modelled JSON stringify on
every inner payload. -/
theorem parse_stringify (p : Payload) : parsePayload (stringifyPayload p) = some p := by
  cases p with
  | dev cid name ver =>
      simp [stringifyPayload, parsePayload, List.append_assoc,
        decOptBytes_enc, decOptBytes_enc_nil]
  | bindok key =>
      simp [stringifyPayload, parsePayload, decOptBytes_enc_nil]
  | dat cols vals =>
      simp [stringifyPayload, parsePayload, List.append_assoc,
        decListBytes_enc, decListInt_enc_nil]
  | res opt val pvals =>
      simp [stringifyPayload, parsePayload, List.append_assoc,
        decListBytes_enc, decOptListInt_enc, decOptListInt_enc_nil]
  | bind mac uid =>
      simp [stringifyPayload, parsePayload, decOptBytes_enc]
  | status cols mac =>
      simp [stringifyPayload, parsePayload, List.append_assoc,
        decListBytes_enc, decOptBytes_enc_nil]
  | cmd opt pvals =>
      simp [stringifyPayload, parsePayload, List.append_assoc,
        decListBytes_enc, decListInt_enc_nil]
  | other => rfl

/-! ## Helper lemmas: the parallel-array property update -/

theorem lookup_applyCols_not_mem :
    ∀ (cols : List Bytes) (ps : List (Bytes × Option Int)) (vals : List Int)
      (i : Nat) (c : Bytes), c ∉ cols →
      lookupProp (applyCols ps cols vals i) c = lookupProp ps c := by
  intro cols
  induction cols with
  | nil => intro ps vals i c _; rfl
  | cons a t ih =>
      intro ps vals i c h
      rw [List.mem_cons, not_or] at h
      simp only [applyCols]
      rw [ih _ _ _ _ h.2]
      simp [setProp, lookupProp, h.1]

theorem lookup_applyCols :
    ∀ (cols : List Bytes) (j : Nat) (c : Bytes) (ps : List (Bytes × Option Int))
      (vals : List Int) (i : Nat),
      cols[j]? = some c → c ∉ cols.drop (j + 1) →
      lookupProp (applyCols ps cols vals i) c = some vals[i + j]? := by
  intro cols
  induction cols with
  | nil => intro j c ps vals i hj _; simp at hj
  | cons a t ih =>
      intro j c ps vals i hj hd
      cases j with
      | zero =>
          rw [List.getElem?_cons_zero, Option.some.injEq] at hj
          subst hj
          rw [List.drop_one, List.tail_cons] at hd
          simp only [applyCols]
          rw [lookup_applyCols_not_mem _ _ _ _ _ hd]
          simp [setProp, lookupProp]
      | succ j' =>
          rw [List.getElem?_cons_succ] at hj
          have hd' : c ∉ t.drop (j' + 1) := by
            simpa [List.drop_succ_cons] using hd
          simp only [applyCols]
          rw [ih j' c _ vals (i + 1) hj hd']
          congr 2
          omega

/-! ## Helper lemmas: the handler's branch outcomes -/

/-- `_sendBindRequest` never mutates the session: it either throws the
ReferenceError of `encrypt_v2` (authenticated scheme, no key available)
or sends the untagged legacy bind request. -/
theorem sendBindRequest_eq (st : DeviceState) :
    sendBindRequest st =
      if st.encryptionV2 then Except.error st
      else Except.ok (st,
        [Effect.send ⟨1, encrypt (Payload.bind st.id 0) none, none⟩
          st.port st.address]) := by
  cases hv : st.encryptionV2 <;> simp [sendBindRequest, encrypt_v2, hv]

theorem setDevice_bound (st : DeviceState) (id name : Option Bytes)
    (address : Bytes) (port : Nat) :
    (setDevice st id name address port).bound = false := rfl

/-- The try-block dispatch preserves the binding invariant: it can set
`bound` only under the `idTruthy` guard, and every branch that throws
or resets state leaves `bound` false or the id untouched. -/
theorem dispatch_inv (opts : Options) (st : DeviceState) (rinfo : RInfo)
    (m : InMessage) (p : Payload) :
    (∀ st' effs, dispatch opts st rinfo m p = Except.ok (st', effs) →
      (st.bound = true → idTruthy st.id = true) →
      st'.bound = true → idTruthy st'.id = true) ∧
    (∀ s, dispatch opts st rinfo m p = Except.error s →
      (st.bound = true → idTruthy st.id = true) →
      s.bound = true → idTruthy s.id = true) := by
  cases p with
  | dev cid name ver =>
      constructor
      · intro st' effs h _ hb
        simp only [dispatch, sendBindRequest_eq] at h
        split at h <;> split at h
        · simp at h
        · rw [Except.ok.injEq, Prod.mk.injEq] at h
          rw [← h.1] at hb
          rw [setDevice_bound] at hb
          simp at hb
        · simp at h
        · rw [Except.ok.injEq, Prod.mk.injEq] at h
          rw [← h.1] at hb
          rw [setDevice_bound] at hb
          simp at hb
      · intro s h _ hb
        simp only [dispatch, sendBindRequest_eq] at h
        split at h <;> split at h
        · rw [Except.error.injEq] at h
          rw [← h] at hb
          rw [setDevice_bound] at hb
          simp at hb
        · simp at h
        · rw [Except.error.injEq] at h
          rw [← h] at hb
          rw [setDevice_bound] at hb
          simp at hb
        · simp at h
  | bindok k =>
      constructor
      · intro st' effs h hinv hb
        simp only [dispatch] at h
        by_cases hg : idTruthy st.id = true
        · rw [if_pos hg] at h
          rw [Except.ok.injEq, Prod.mk.injEq] at h
          rw [← h.1]
          exact hg
        · rw [if_neg hg] at h
          rw [Except.ok.injEq, Prod.mk.injEq] at h
          rw [← h.1] at hb ⊢
          exact hinv hb
      · intro s h _ _
        simp only [dispatch] at h
        split at h <;> exact absurd h (by simp)
  | dat cols vals =>
      constructor
      · intro st' effs h hinv hb
        simp only [dispatch] at h
        split at h <;>
          · rw [Except.ok.injEq, Prod.mk.injEq] at h
            rw [← h.1] at hb
            have := hinv hb
            rw [← h.1]
            exact this
      · intro s h _ _
        simp only [dispatch] at h
        split at h <;> exact absurd h (by simp)
  | res opt val pvals =>
      constructor
      · intro st' effs h hinv hb
        simp only [dispatch] at h
        split at h
        · split at h
          · rw [Except.ok.injEq, Prod.mk.injEq] at h
            rw [← h.1] at hb
            have := hinv hb
            rw [← h.1]
            exact this
          · split at h
            · rw [Except.ok.injEq, Prod.mk.injEq] at h
              rw [← h.1] at hb
              have := hinv hb
              rw [← h.1]
              exact this
            · exact absurd h (by simp)
        · rw [Except.ok.injEq, Prod.mk.injEq] at h
          rw [← h.1] at hb
          have := hinv hb
          rw [← h.1]
          exact this
      · intro s h hinv hb
        simp only [dispatch] at h
        split at h
        · split at h
          · exact absurd h (by simp)
          · split at h
            · exact absurd h (by simp)
            · rw [Except.error.injEq] at h
              rw [← h] at hb
              have := hinv hb
              rw [← h]
              exact this
        · exact absurd h (by simp)
  | bind mac uid =>
      constructor
      · intro st' effs h hinv hb
        simp only [dispatch] at h
        rw [Except.ok.injEq, Prod.mk.injEq] at h
        rw [← h.1] at hb
        have := hinv hb
        rw [← h.1]
        exact this
      · intro s h _ _
        simp only [dispatch] at h
        exact absurd h (by simp)
  | status cols mac =>
      constructor
      · intro st' effs h hinv hb
        simp only [dispatch] at h
        rw [Except.ok.injEq, Prod.mk.injEq] at h
        rw [← h.1] at hb
        have := hinv hb
        rw [← h.1]
        exact this
      · intro s h _ _
        simp only [dispatch] at h
        exact absurd h (by simp)
  | cmd opt pvals =>
      constructor
      · intro st' effs h hinv hb
        simp only [dispatch] at h
        rw [Except.ok.injEq, Prod.mk.injEq] at h
        rw [← h.1] at hb
        have := hinv hb
        rw [← h.1]
        exact this
      · intro s h _ _
        simp only [dispatch] at h
        exact absurd h (by simp)
  | other =>
      constructor
      · intro st' effs h hinv hb
        simp only [dispatch] at h
        rw [Except.ok.injEq, Prod.mk.injEq] at h
        rw [← h.1] at hb
        have := hinv hb
        rw [← h.1]
        exact this
      · intro s h _ _
        simp only [dispatch] at h
        exact absurd h (by simp)

/-- The whole try block (decrypt plus dispatch) preserves the binding
invariant in both its normal and its thrown outcome. -/
theorem handleTry_inv (opts : Options) (st : DeviceState) (rinfo : RInfo)
    (m : InMessage) :
    (∀ st' effs, handleTry opts st rinfo m = Except.ok (st', effs) →
      (st.bound = true → idTruthy st.id = true) →
      st'.bound = true → idTruthy st'.id = true) ∧
    (∀ s, handleTry opts st rinfo m = Except.error s →
      (st.bound = true → idTruthy st.id = true) →
      s.bound = true → idTruthy s.id = true) := by
  unfold handleTry
  cases hd : decryptEnvelope st.key m.pack m.tag with
  | error e =>
      constructor
      · intro st' effs h
        exact absurd h (by simp)
      · intro s h hinv hb
        rw [Except.error.injEq] at h
        rw [← h] at hb
        have := hinv hb
        rw [← h]
        exact this
  | ok p =>
      exact dispatch_inv opts st rinfo m p

/-- Every effect list a dispatch branch can produce: one of the
callback singletons, the bindok pair (whose post-state is bound), or
the bind-request send (marked `i = 1`, the only send a handler branch
ever emits). -/
theorem dispatch_effects (opts : Options) (st : DeviceState) (rinfo : RInfo)
    (m : InMessage) (p : Payload) (st' : DeviceState) (effs : List Effect)
    (h : dispatch opts st rinfo m p = Except.ok (st', effs)) :
    effs = [Effect.onError] ∨ effs = [Effect.onStatus] ∨
    effs = [Effect.onUpdate] ∨
    (effs = [Effect.startInterval opts.updateInterval, Effect.onConnected] ∧
      st'.bound = true) ∨
    effs = [Effect.send ⟨1, encrypt (Payload.bind st'.id 0) none, none⟩
      st'.port st'.address] := by
  cases p with
  | dev cid name ver =>
      simp only [dispatch, sendBindRequest_eq] at h
      split at h <;> split at h
      · simp at h
      · rw [Except.ok.injEq, Prod.mk.injEq] at h
        refine Or.inr (Or.inr (Or.inr (Or.inr ?_)))
        rw [← h.1]
        exact h.2.symm
      · simp at h
      · rw [Except.ok.injEq, Prod.mk.injEq] at h
        refine Or.inr (Or.inr (Or.inr (Or.inr ?_)))
        rw [← h.1]
        exact h.2.symm
  | bindok k =>
      simp only [dispatch] at h
      by_cases hg : idTruthy st.id = true
      · rw [if_pos hg] at h
        rw [Except.ok.injEq, Prod.mk.injEq] at h
        refine Or.inr (Or.inr (Or.inr (Or.inl ⟨h.2.symm, ?_⟩)))
        rw [← h.1]
      · rw [if_neg hg] at h
        rw [Except.ok.injEq, Prod.mk.injEq] at h
        exact Or.inl h.2.symm
  | dat cols vals =>
      simp only [dispatch] at h
      split at h
      · rw [Except.ok.injEq, Prod.mk.injEq] at h
        exact Or.inr (Or.inl h.2.symm)
      · rw [Except.ok.injEq, Prod.mk.injEq] at h
        exact Or.inl h.2.symm
  | res opt val pvals =>
      simp only [dispatch] at h
      split at h
      · split at h
        · rw [Except.ok.injEq, Prod.mk.injEq] at h
          exact Or.inr (Or.inr (Or.inl h.2.symm))
        · split at h
          · rw [Except.ok.injEq, Prod.mk.injEq] at h
            exact Or.inr (Or.inr (Or.inl h.2.symm))
          · simp at h
      · rw [Except.ok.injEq, Prod.mk.injEq] at h
        exact Or.inl h.2.symm
  | bind mac uid =>
      simp only [dispatch] at h
      rw [Except.ok.injEq, Prod.mk.injEq] at h
      exact Or.inl h.2.symm
  | status cols mac =>
      simp only [dispatch] at h
      rw [Except.ok.injEq, Prod.mk.injEq] at h
      exact Or.inl h.2.symm
  | cmd opt pvals =>
      simp only [dispatch] at h
      rw [Except.ok.injEq, Prod.mk.injEq] at h
      exact Or.inl h.2.symm
  | other =>
      simp only [dispatch] at h
      rw [Except.ok.injEq, Prod.mk.injEq] at h
      exact Or.inl h.2.symm

/-- The try block's normal outcomes produce the same effect lists as
the dispatch branches. -/
theorem handleTry_effects (opts : Options) (st : DeviceState) (rinfo : RInfo)
    (m : InMessage) (st' : DeviceState) (effs : List Effect)
    (h : handleTry opts st rinfo m = Except.ok (st', effs)) :
    effs = [Effect.onError] ∨ effs = [Effect.onStatus] ∨
    effs = [Effect.onUpdate] ∨
    (effs = [Effect.startInterval opts.updateInterval, Effect.onConnected] ∧
      st'.bound = true) ∨
    effs = [Effect.send ⟨1, encrypt (Payload.bind st'.id 0) none, none⟩
      st'.port st'.address] := by
  unfold handleTry at h
  cases hd : decryptEnvelope st.key m.pack m.tag with
  | error e =>
      rw [hd] at h
      simp at h
  | ok p =>
      rw [hd] at h
      exact dispatch_effects opts st rinfo m p st' effs h

/-- Every effect list the whole handler can produce: the sender-filter
drop, a callback singleton, the bindok pair (post-state bound), or the
bind-request send (`i = 1`).  In particular the handler never sends a
status or command request (those carry `i = 0`) and never registers
the poll timer with an unbound post-state. -/
theorem handleResponse_effects (opts : Options) (st : DeviceState)
    (rinfo : RInfo) (raw : Option InMessage) (st' : DeviceState)
    (effs : List Effect)
    (h : handleResponse opts st rinfo raw = Except.ok (st', effs)) :
    effs = [] ∨ effs = [Effect.onError] ∨ effs = [Effect.onStatus] ∨
    effs = [Effect.onUpdate] ∨
    (effs = [Effect.startInterval opts.updateInterval, Effect.onConnected] ∧
      st'.bound = true) ∨
    effs = [Effect.send ⟨1, encrypt (Payload.bind st'.id 0) none, none⟩
      st'.port st'.address] := by
  unfold handleResponse at h
  split at h
  · rw [Except.ok.injEq, Prod.mk.injEq] at h
    exact Or.inl h.2.symm
  · split at h
    · exact absurd h (by simp)
    · split at h
      next r heq =>
        rw [Except.ok.injEq] at h
        have := handleTry_effects opts st rinfo _ r.1 r.2 (by rw [heq])
        rw [h] at this
        exact Or.inr this
      next s heq =>
        rw [Except.ok.injEq, Prod.mk.injEq] at h
        exact Or.inr (Or.inl h.2.symm)

/-! ## Claim theorems -/

/-- C1, counterexample: a datagram from the configured device address
whose outer text is not valid JSON is parsed on line 157, *outside* the
try/catch, so the failure is not reported via onError and does not stay
inside the handler: the exception escapes `_handleResponse` uncaught,
contradicting the claim that every parse failure on a datagram from the
device address reports onError and is never fatal. -/
theorem claimC1_counterexample :
    handleResponse (mkOptions wHost none) initState wRinfo none =
      Except.error () := rfl

/-- C1, amended: for a datagram from the configured device address,
any decryption failure or JSON-parse failure of the decrypted payload
(the failures that occur inside the try block) reports onError to the
caller and leaves the session state unchanged; only the outer
JSON.parse of the raw datagram, which runs before the try block,
escapes instead (see the counterexample). -/
theorem claimC1 (opts : Options) (st : DeviceState) (rinfo : RInfo)
    (m : InMessage) (e : DecErr) (haddr : rinfo.address = opts.host)
    (hdec : decryptEnvelope st.key m.pack m.tag = Except.error e) :
    handleResponse opts st rinfo (some m) = Except.ok (st, [Effect.onError]) := by
  simp [handleResponse, handleTry, haddr, hdec]

/-- C1, witness: the amended theorem evaluated on an undecryptable
envelope from the device address, in the freshly connected session. -/
theorem claimC1_witness :
    handleResponse (mkOptions wHost none) initState wRinfo (some mBadJson) =
      Except.ok (initState, [Effect.onError]) :=
  claimC1 _ _ _ _ DecErr.badJson rfl rfl

/-- C2: contrary to the claim, the pre-bind authenticated-scheme calls
do not succeed with the well-known default key: `encrypt_v2` invoked
without a key (exactly the `_sendBindRequest` call after a V2
handshake) and `decrypt_v2` invoked with an undefined session key both
evaluate their default-key expression `genericKey_v2`, a name that is
defined nowhere, and so throw a ReferenceError; the declared
`defaultKey_v2` parameter is never used. -/
theorem claimC2 :
    encrypt_v2 (Payload.bind (some wId) 0) none = Except.error DecErr.refError ∧
    decrypt_v2 (strBytes "ciphertext") 0 none = Except.error DecErr.refError :=
  ⟨rfl, rfl⟩

/-- C7: under the authenticated scheme, for every payload P and key K,
decrypting the ciphertext produced by `encrypt_v2` together with its
tag under the same key yields P again, and decrypting the same
ciphertext with any corrupted (different) tag fails with the
authentication DecodeError instead of returning a payload. -/
theorem claimC7 (P : Payload) (k : Bytes) (enc : EncV2) (t' : Nat)
    (henc : encrypt_v2 P (some k) = Except.ok enc) (ht : t' ≠ enc.tag) :
    decrypt_v2 enc.pack enc.tag (some k) = Except.ok P ∧
    decrypt_v2 enc.pack t' (some k) = Except.error DecErr.badTag := by
  cases enc with
  | mk pk tg =>
      simp only [encrypt_v2, Except.ok.injEq, EncV2.mk.injEq] at henc
      obtain ⟨hpk, htg⟩ := henc
      subst hpk
      subst htg
      constructor
      · simp [decrypt_v2, gcmCtr_gcmCtr, parse_stringify]
      · simp only [EncV2.tag] at ht
        simp [decrypt_v2, ht]

/-- C7, witness: the round trip and the tag rejection evaluated on a
concrete bind payload under the session key. -/
theorem claimC7_witness :
    decrypt_v2 w7enc.pack w7enc.tag (some sessionKey) = Except.ok w7P ∧
    decrypt_v2 w7enc.pack (w7enc.tag + 1) (some sessionKey) =
      Except.error DecErr.badTag :=
  claimC7 w7P sessionKey w7enc (w7enc.tag + 1) rfl (Nat.succ_ne_self _)

/-- C8: under the legacy scheme, for every payload P and key K,
decrypting the ciphertext produced by `encrypt` under the same key
yields P again (encrypt-then-decrypt is the identity). -/
theorem claimC8 (P : Payload) (k : Bytes) :
    decrypt (encrypt P (some k)) (some k) = Except.ok P := by
  simp [decrypt, encrypt, ecbApply_ecbApply, parse_stringify]

/-- C9: an inbound datagram whose sender address differs from the
configured device address is discarded before anything else happens:
the session state is returned unchanged and no effect (no callback, no
send) is produced, whatever the datagram contains -- including a
datagram that is not valid JSON, since the sender check precedes the
outer parse. -/
theorem claimC9 (opts : Options) (st : DeviceState) (rinfo : RInfo)
    (raw : Option InMessage) (h : rinfo.address ≠ opts.host) :
    handleResponse opts st rinfo raw = Except.ok (st, []) := by
  simp [handleResponse, h]

/-- C9, witness: a non-JSON datagram from an unrelated host is dropped
with no state change and no effects. -/
theorem claimC9_witness :
    handleResponse (mkOptions wHost none) initState wRinfoFar none =
      Except.ok (initState, []) :=
  claimC9 _ _ _ _ (by decide)

/-- C3: on a `bindok` payload with identity established, the handler
sets `bound := true`, stores the session key from the payload, fires
onConnected, and registers the recurring poll at the configured
interval -- but the effect list contains no send: contrary to the claim
(and to the source's own log line 'Sent first device status request',
line 186), no status request is issued immediately; the first poll
fires only after one full `updateInterval` (`mkOptions` defaults it to
10000 ms, as the witness shows). -/
theorem claimC3 (opts : Options) (st : DeviceState) (rinfo : RInfo)
    (m : InMessage) (k : Option Bytes) (haddr : rinfo.address = opts.host)
    (hdec : decryptEnvelope st.key m.pack m.tag = Except.ok (Payload.bindok k))
    (hid : idTruthy st.id = true) :
    handleResponse opts st rinfo (some m) =
      Except.ok ({ st with bound := true, key := k },
        [Effect.startInterval opts.updateInterval, Effect.onConnected]) := by
  simp [handleResponse, handleTry, dispatch, haddr, hdec, hid]

/-- C3, witness: a concrete `bindok` carrying a session key, received
by an identified session configured with the default interval. -/
theorem claimC3_witness :
    handleResponse (mkOptions wHost none) stIdent wRinfo (some mBindok) =
      Except.ok ({ stIdent with bound := true, key := some sessionKey },
        [Effect.startInterval 10000, Effect.onConnected]) :=
  claimC3 _ _ _ _ _ rfl rfl rfl

/-- C4, counterexample: `setPower` invoked on the freshly connected
(unbound) session does produce and send a `cmd` request --
`_sendCommand`/`_sendRequest` never consult `bound` -- contradicting
the claim that no command request is ever produced while unbound. -/
theorem claimC4_counterexample :
    initState.bound = false ∧ producesSend (setPower initState true) = true :=
  ⟨rfl, rfl⟩

/-- C4, amended: while `bound == false` no status (`dat`) or command
(`res`) response is accepted -- either is rejected with onError and no
property mutation, no onStatus, no onUpdate (conjuncts 1 and 2).  On
the outbound side, the handler itself can only ever send the bind
request: every send a handler branch emits carries the bind marker
`i = 1`, never a status or command request (conjunct 3), and the poll
timer that issues status requests is registered only in the bindok
branch, whose post-state is bound (conjunct 4).  But the gating stops
there: caller-facing setters such as `setPower` never consult `bound`
and send a `cmd` request even while unbound (conjunct 6 and the
counterexample), and the poll tick `_requestDeviceStatus` never
consults `bound` either (conjunct 5) -- since the bindok interval is
never cleared and a later `dev` payload resets `bound = false`, a
stale timer keeps issuing status requests while unbound. -/
theorem claimC4 :
    (∀ (opts : Options) (st : DeviceState) (rinfo : RInfo) (m : InMessage)
        (cols : List Bytes) (vals : List Int),
        rinfo.address = opts.host →
        decryptEnvelope st.key m.pack m.tag = Except.ok (Payload.dat cols vals) →
        st.bound = false →
        handleResponse opts st rinfo (some m) = Except.ok (st, [Effect.onError])) ∧
    (∀ (opts : Options) (st : DeviceState) (rinfo : RInfo) (m : InMessage)
        (opt : List Bytes) (val pvals : Option (List Int)),
        rinfo.address = opts.host →
        decryptEnvelope st.key m.pack m.tag =
          Except.ok (Payload.res opt val pvals) →
        st.bound = false →
        handleResponse opts st rinfo (some m) = Except.ok (st, [Effect.onError])) ∧
    (∀ (opts : Options) (st : DeviceState) (rinfo : RInfo)
        (raw : Option InMessage) (st' : DeviceState) (effs : List Effect)
        (req : Request) (prt : Option Nat) (adr : Option Bytes),
        handleResponse opts st rinfo raw = Except.ok (st', effs) →
        Effect.send req prt adr ∈ effs → req.i = 1) ∧
    (∀ (opts : Options) (st : DeviceState) (rinfo : RInfo)
        (raw : Option InMessage) (st' : DeviceState) (effs : List Effect)
        (ms : Nat),
        handleResponse opts st rinfo raw = Except.ok (st', effs) →
        Effect.startInterval ms ∈ effs → st'.bound = true) ∧
    (∀ st : DeviceState, st.encryptionV2 = false →
        requestDeviceStatus st = Except.ok
          [Effect.send ⟨0, encrypt (Payload.status allCommandCodes st.id)
            st.key, none⟩ st.port st.address]) ∧
    producesSend (setPower initState true) = true := by
  refine ⟨?_, ?_, ?_, ?_, ?_, rfl⟩
  · intro opts st rinfo m cols vals haddr hdec hbound
    simp [handleResponse, handleTry, dispatch, haddr, hdec, hbound]
  · intro opts st rinfo m opt val pvals haddr hdec hbound
    simp [handleResponse, handleTry, dispatch, haddr, hdec, hbound]
  · intro opts st rinfo raw st' effs req prt adr h hmem
    rcases handleResponse_effects opts st rinfo raw st' effs h with
      h0 | h0 | h0 | h0 | ⟨h0, _⟩ | h0
    · subst h0; simp at hmem
    · subst h0; simp at hmem
    · subst h0; simp at hmem
    · subst h0; simp at hmem
    · subst h0; simp at hmem
    · subst h0
      rw [List.mem_singleton] at hmem
      rw [Effect.send.injEq] at hmem
      rw [hmem.1]
  · intro opts st rinfo raw st' effs ms h hmem
    rcases handleResponse_effects opts st rinfo raw st' effs h with
      h0 | h0 | h0 | h0 | ⟨h0, hb⟩ | h0
    · subst h0; simp at hmem
    · subst h0; simp at hmem
    · subst h0; simp at hmem
    · subst h0; simp at hmem
    · exact hb
    · subst h0; simp at hmem
  · intro st hleg
    simp [requestDeviceStatus, sendRequest, hleg]

/-- C4, witness: a concrete `dat` reply received while unbound is
rejected with onError and no state change. -/
theorem claimC4_witness :
    handleResponse (mkOptions wHost none) stIdent wRinfo (some mDatDefault) =
      Except.ok (stIdent, [Effect.onError]) :=
  claimC4.1 _ _ _ _ _ _ rfl rfl rfl

/-- C5: negotiation is a session-level flag set from the handshake
reply: a `dev` whose `ver` starts with "V2." sets `encryptionV2`
(conjunct 1), a `dev` with a non-V2 or missing `ver` leaves the session
legacy and sends the bind request under the legacy scheme with no tag
(conjunct 2), a session with the flag set and a key available sends
every request under the authenticated scheme with a tag (conjunct 3),
and a legacy session sends every request untagged (conjunct 4).  But
contrary to the claim, the bind request after a V2 handshake is never
sent under the authenticated scheme: `_sendBindRequest` calls
`encrypt_v2` without a key, which throws the `genericKey_v2`
ReferenceError, so the handler fires onError instead of sending
(conjunct 1's effect list). -/
theorem claimC5 :
    (∀ (opts : Options) (st : DeviceState) (rinfo : RInfo) (m : InMessage)
        (cid name ver : Option Bytes),
        rinfo.address = opts.host →
        decryptEnvelope st.key m.pack m.tag =
          Except.ok (Payload.dev cid name ver) →
        verIsV2 ver = true →
        handleResponse opts st rinfo (some m) =
          Except.ok (setDevice { st with encryptionV2 := true } cid name
            rinfo.address rinfo.port, [Effect.onError]) ∧
        (setDevice { st with encryptionV2 := true } cid name rinfo.address
          rinfo.port).encryptionV2 = true) ∧
    (∀ (opts : Options) (st : DeviceState) (rinfo : RInfo) (m : InMessage)
        (cid name ver : Option Bytes),
        rinfo.address = opts.host →
        decryptEnvelope st.key m.pack m.tag =
          Except.ok (Payload.dev cid name ver) →
        verIsV2 ver = false → st.encryptionV2 = false →
        handleResponse opts st rinfo (some m) =
          Except.ok (setDevice st m.cid name rinfo.address rinfo.port,
            [Effect.send ⟨1, encrypt (Payload.bind m.cid 0) none, none⟩
              (some rinfo.port) (some rinfo.address)]) ∧
        (setDevice st m.cid name rinfo.address rinfo.port).encryptionV2 =
          false) ∧
    (∀ (st : DeviceState) (msg : Payload) (addr : Option Bytes)
        (prt : Option Nat) (k : Bytes),
        st.encryptionV2 = true → st.key = some k →
        sendRequest st msg addr prt =
          Except.ok [Effect.send ⟨0, gcmCtr k (stringifyPayload msg),
            some (gcmTag k (gcmCtr k (stringifyPayload msg)))⟩ prt addr]) ∧
    (∀ (st : DeviceState) (msg : Payload) (addr : Option Bytes)
        (prt : Option Nat),
        st.encryptionV2 = false →
        sendRequest st msg addr prt =
          Except.ok [Effect.send ⟨0, encrypt msg st.key, none⟩ prt addr]) := by
  refine ⟨?_, ?_, ?_, ?_⟩
  · intro opts st rinfo m cid name ver haddr hdec hver
    constructor
    · simp [handleResponse, handleTry, dispatch, haddr, hdec, hver,
        sendBindRequest_eq, setDevice]
    · simp [setDevice]
  · intro opts st rinfo m cid name ver haddr hdec hver hleg
    constructor
    · simp [handleResponse, handleTry, dispatch, haddr, hdec, hver,
        sendBindRequest_eq, setDevice, hleg]
    · simp [setDevice, hleg]
  · intro st msg addr prt k hv2 hkey
    simp [sendRequest, hv2, hkey, encrypt_v2]
  · intro st msg addr prt hleg
    simp [sendRequest, hleg]

/-- C5, witness: conjunct 1 evaluated on a concrete handshake reply
reporting firmware V2.1.0, received by the fresh session. -/
theorem claimC5_witness :
    handleResponse (mkOptions wHost none) initState wRinfo (some mDevV2) =
      Except.ok (setDevice { initState with encryptionV2 := true } (some wId)
        (some (strBytes "ac")) wHost 7000, [Effect.onError]) ∧
    (setDevice { initState with encryptionV2 := true } (some wId)
      (some (strBytes "ac")) wHost 7000).encryptionV2 = true :=
  claimC5.1 _ _ _ _ _ _ _ rfl rfl rfl

/-- C6: while bound, a `dat` payload assigns
`props[cols[i]] = dat[i]` positionwise and fires onStatus (conjunct 1),
and a `res` payload assigns `props[opt[i]]` from `val[i]` when a `val`
array is present (conjunct 2) and from `p[i]` otherwise (conjunct 3),
firing onUpdate; the position read is stated for every index whose code
has no later duplicate (with duplicates, JS last-write-wins). -/
theorem claimC6 :
    (∀ (opts : Options) (st : DeviceState) (rinfo : RInfo) (m : InMessage)
        (cols : List Bytes) (vals : List Int) (i : Nat) (c : Bytes),
        rinfo.address = opts.host →
        decryptEnvelope st.key m.pack m.tag = Except.ok (Payload.dat cols vals) →
        st.bound = true → cols[i]? = some c → c ∉ cols.drop (i + 1) →
        handleResponse opts st rinfo (some m) =
          Except.ok ({ st with props := applyCols st.props cols vals 0 },
            [Effect.onStatus]) ∧
        lookupProp (applyCols st.props cols vals 0) c = some vals[i]?) ∧
    (∀ (opts : Options) (st : DeviceState) (rinfo : RInfo) (m : InMessage)
        (opt : List Bytes) (v : List Int) (pvals : Option (List Int))
        (i : Nat) (c : Bytes),
        rinfo.address = opts.host →
        decryptEnvelope st.key m.pack m.tag =
          Except.ok (Payload.res opt (some v) pvals) →
        st.bound = true → opt[i]? = some c → c ∉ opt.drop (i + 1) →
        handleResponse opts st rinfo (some m) =
          Except.ok ({ st with props := applyCols st.props opt v 0 },
            [Effect.onUpdate]) ∧
        lookupProp (applyCols st.props opt v 0) c = some v[i]?) ∧
    (∀ (opts : Options) (st : DeviceState) (rinfo : RInfo) (m : InMessage)
        (opt : List Bytes) (pl : List Int) (i : Nat) (c : Bytes),
        rinfo.address = opts.host →
        decryptEnvelope st.key m.pack m.tag =
          Except.ok (Payload.res opt none (some pl)) →
        st.bound = true → opt[i]? = some c → c ∉ opt.drop (i + 1) →
        handleResponse opts st rinfo (some m) =
          Except.ok ({ st with props := applyCols st.props opt pl 0 },
            [Effect.onUpdate]) ∧
        lookupProp (applyCols st.props opt pl 0) c = some pl[i]?) := by
  refine ⟨?_, ?_, ?_⟩
  · intro opts st rinfo m cols vals i c haddr hdec hbound hc hnd
    constructor
    · simp [handleResponse, handleTry, dispatch, haddr, hdec, hbound]
    · have := lookup_applyCols cols i c st.props vals 0 hc hnd
      simpa using this
  · intro opts st rinfo m opt v pvals i c haddr hdec hbound hc hnd
    constructor
    · simp [handleResponse, handleTry, dispatch, haddr, hdec, hbound]
    · have := lookup_applyCols opt i c st.props v 0 hc hnd
      simpa using this
  · intro opts st rinfo m opt pl i c haddr hdec hbound hc hnd
    constructor
    · simp [handleResponse, handleTry, dispatch, haddr, hdec, hbound]
    · have := lookup_applyCols opt i c st.props pl 0 hc hnd
      simpa using this

/-- C6, witness: the `dat` conjunct evaluated on cols=[Pow, Mod],
dat=[1, 2] in a bound session: onStatus fires and props[Pow] reads 1. -/
theorem claimC6_witness :
    handleResponse (mkOptions wHost none) stBound wRinfo (some mDat) =
      Except.ok ({ stBound with props := (applyCols stBound.props
        [strBytes "Pow", strBytes "Mod"] [1, 2] 0) }, [Effect.onStatus]) ∧
    lookupProp (applyCols stBound.props [strBytes "Pow", strBytes "Mod"] [1, 2] 0)
      (strBytes "Pow") = some (some 1) :=
  claimC6.1 _ _ _ _ _ _ 0 _ rfl rfl rfl rfl (by decide)

/-- C10: `bound` can only be set under the `device.id` guard: a
`bindok` arriving before any handshake (id unset) leaves the state
unchanged and fires onError -- no bound flag, no stored key, no poll
timer (conjunct 1); and every handler step preserves the invariant that
a bound session has a truthy device id, i.e. an id previously stored by
the `dev` handshake branch, the only writer of `device.id` (conjunct
2). -/
theorem claimC10 :
    (∀ (opts : Options) (st : DeviceState) (rinfo : RInfo) (m : InMessage)
        (k : Option Bytes),
        rinfo.address = opts.host →
        decryptEnvelope st.key m.pack m.tag = Except.ok (Payload.bindok k) →
        st.id = none →
        handleResponse opts st rinfo (some m) =
          Except.ok (st, [Effect.onError])) ∧
    (∀ (opts : Options) (st : DeviceState) (rinfo : RInfo)
        (raw : Option InMessage) (st' : DeviceState) (effs : List Effect),
        handleResponse opts st rinfo raw = Except.ok (st', effs) →
        (st.bound = true → idTruthy st.id = true) →
        st'.bound = true → idTruthy st'.id = true) := by
  constructor
  · intro opts st rinfo m k haddr hdec hid
    simp [handleResponse, handleTry, dispatch, haddr, hdec, hid, idTruthy]
  · intro opts st rinfo raw st' effs h hinv hb
    unfold handleResponse at h
    split at h
    · rw [Except.ok.injEq, Prod.mk.injEq] at h
      rw [← h.1] at hb ⊢
      exact hinv hb
    · split at h
      · exact absurd h (by simp)
      · split at h
        next r heq =>
          rw [Except.ok.injEq] at h
          have := (handleTry_inv opts st rinfo _).1 r.1 r.2 (by rw [heq]) hinv
          rw [h] at this
          exact this hb
        next s heq =>
          rw [Except.ok.injEq, Prod.mk.injEq] at h
          have := (handleTry_inv opts st rinfo _).2 s heq hinv
          rw [← h.1] at hb ⊢
          exact this hb

/-- C10, witness: conjunct 1 evaluated on a `bindok` received by the
fresh session, before any handshake. -/
theorem claimC10_witness :
    handleResponse (mkOptions wHost none) initState wRinfo (some mBindok) =
      Except.ok (initState, [Effect.onError]) :=
  claimC10.1 _ _ _ _ _ rfl rfl rfl

end ChAc
